import Mathlib

/-!
The simplex checker of `stan/math/error_handling/matrix/check_simplex.hpp`.

A shallow embedding of the five-argument `check_simplex` and of the data it
touches, followed by the properties proved about it.

* A vector `Eigen::Matrix<T_prob, Dynamic, 1>` is a `List Scalar`; a `Scalar`
  is an exact rational or the not-a-number value, so that every ordered
  comparison with not-a-number is false and every sum containing it is
  not-a-number.  Rounding is not modelled: arithmetic on numbers is exact.
  The properties of the sum check are therefore stated about the value
  `sum theta` stands for, the sum that `theta.sum()` computes, and about the
  comparison of line 48 on it, never about the mathematical sum of the
  elements; only the two properties whose premise is exact arithmetic use
  the latter.
* The output pointer `T_result* result` is an `Option R`: `none` is the null
  pointer, `some v` a slot currently holding `v`.
* The headers `raise_domain_error.hpp`, `default_policy.hpp` and
  `constraint_tolerance.hpp` are not among the sources.  The policy is a
  parameter (`Policy`), the tolerance, the stream rendering of a `T_prob` and
  the conversion from the index type to `T_result` are parameters (`Env`).
* A call is explicit state passing: `Outcome` records how the call ends, the
  policy invocations it made, the slot afterwards and the number of
  assignments to the slot.
* `detect` is the decision of the checker with the policy taken out (the three
  conditions in the order of the code); `check_simplex_eq_detect` ties every
  call to it.  The overloads without a policy argument take `default_policy()`
  as a parameter.
-/

namespace stan.math

/-! ## Numbers -/

/-- Values of type `T_prob`: an exact number, or not-a-number. -/
inductive Scalar where
  | nan : Scalar
  | num (q : ℚ) : Scalar
  deriving DecidableEq

namespace Scalar

/-- Addition, as used by `theta.sum()`; not-a-number is absorbing. -/
def add : Scalar → Scalar → Scalar
  | num a, num b => num (a + b)
  | _, _ => nan

/-- Subtraction, as in `1.0 - theta.sum()`; not-a-number is absorbing. -/
def sub : Scalar → Scalar → Scalar
  | num a, num b => num (a - b)
  | _, _ => nan

/-- The comparison `a > b`; false as soon as one side is not-a-number. -/
def gt : Scalar → Scalar → Bool
  | num a, num b => decide (b < a)
  | _, _ => false

/-- The comparison `a >= b`; false as soon as one side is not-a-number. -/
def ge : Scalar → Scalar → Bool
  | num a, num b => decide (b ≤ a)
  | _, _ => false

end Scalar

/-- The absolute value `fabs`. -/
def fabs : Scalar → Scalar
  | Scalar.num a => Scalar.num |a|
  | Scalar.nan => Scalar.nan

/-- The reduction `theta.sum()`: the sum of the coefficients, `0` for the
vector of size zero. -/
def sum (theta : List Scalar) : Scalar :=
  theta.foldl Scalar.add (Scalar.num 0)

/-! ## Policies, calls and outcomes -/

/-- The numeric argument `val` of `raise_domain_error<T, TVal>`: an element
count (`TVal = size_t`) or a value of the vector's scalar type
(`TVal = T_prob`). -/
inductive Payload where
  | count (n : Nat) : Payload
  | value (x : Scalar) : Payload
  deriving DecidableEq

/-- One invocation of `raise_domain_error`: the function name, the message
template and the numeric payload handed to the policy. -/
structure Call where
  function : String
  message : String
  payload : Payload
  deriving DecidableEq

/-- The error-handling policy, seen through the two instantiations of
`raise_domain_error` that `check_simplex` uses.  Either instantiation may
return a value normally (`Except.ok`) or end in an error (`Except.error`). -/
structure Policy (E R : Type) where
  /-- The instantiation `raise_domain_error<size_t, size_t>`. -/
  raise_size : String → String → Nat → Except E Nat
  /-- The instantiation `raise_domain_error<T_result, T_prob>`. -/
  raise_prob : String → String → Scalar → Except E R

/-- A value-producing policy: both instantiations return normally. -/
def Policy.producing (E : Type) {R : Type} (gi : String → String → Nat → Nat)
    (gv : String → String → Scalar → R) : Policy E R :=
  { raise_size := fun f m n => Except.ok (gi f m n)
    raise_prob := fun f m x => Except.ok (gv f m x) }

/-- A raising policy: both instantiations end in an error. -/
def Policy.raising {E : Type} (R : Type) (ei : String → String → Nat → E)
    (ev : String → String → Scalar → E) : Policy E R :=
  { raise_size := fun f m n => Except.error (ei f m n)
    raise_prob := fun f m x => Except.error (ev f m x) }

/-- What the translation unit takes from outside `check_simplex.hpp`. -/
structure Env (R : Type) where
  /-- The constant of `constraint_tolerance.hpp`. -/
  CONSTRAINT_TOLERANCE : ℚ
  /-- The stream insertion `msg << sum` of a `T_prob`. -/
  render : Scalar → String
  /-- The conversion from `size_t` to `T_result` in `T_result tmp = ...`. -/
  convert : Nat → R

/-- How a call of `check_simplex` ends, and what it did. -/
structure Outcome (E R : Type) where
  /-- The returned boolean, or the error that ended the call. -/
  ret : Except E Bool
  /-- The invocations of `raise_domain_error`, in order. -/
  calls : List Call
  /-- The output slot after the call (`none`: null pointer). -/
  slot : Option R
  /-- The number of assignments `*result = tmp` executed. -/
  writes : Nat

/-- The statement `if (result != 0) *result = tmp;`: the slot afterwards and
the number of assignments made. -/
def store {R : Type} (result : Option R) (tmp : R) : Option R × Nat :=
  match result with
  | none => (none, 0)
  | some _ => (some tmp, 1)

/-- The common tail of the three violation branches:
`T_result tmp = raise_domain_error(...); if (result != 0) *result = tmp; return false;`.
When the policy call ends in an error, nothing after it is executed. -/
def report {E R : Type} (function message : String) (payload : Payload)
    (result : Option R) (raised : Except E R) : Outcome E R :=
  match raised with
  | Except.error e =>
    { ret := Except.error e, calls := [⟨function, message, payload⟩],
      slot := result, writes := 0 }
  | Except.ok tmp =>
    { ret := Except.ok false, calls := [⟨function, message, payload⟩],
      slot := (store result tmp).1, writes := (store result tmp).2 }

/-! ## Message templates -/

/-- The template of the size-zero branch (lines 38-39). -/
def empty_message (name : String) : String :=
  name ++ " is not a valid simplex. %1% elements in the vector."

/-- The template of the sum branch (lines 49-53); `sum` is inserted into the
text by the stream, through `render`. -/
def sum_message (render : Scalar → String) (name : String) (sum : Scalar) : String :=
  "in function check_simplex(%1%), " ++ name ++ " is not a valid simplex."
    ++ " The sum of the elements should be 1, but is " ++ render sum

/-- The template of the element branch (lines 64-67); the index `n` is
inserted in decimal. -/
def element_message (name : String) (n : Nat) : String :=
  name ++ " is not a valid simplex." ++ " The element at " ++ toString n
    ++ " is %1%, but should be greater than or equal to 0"

/-! ## The checker -/

/-- The condition of line 48: `fabs(1.0 - theta.sum()) > CONSTRAINT_TOLERANCE`. -/
def sum_out_of_tolerance {R : Type} (env : Env R) (theta : List Scalar) : Bool :=
  (fabs (Scalar.sub (Scalar.num 1) (sum theta))).gt (Scalar.num env.CONSTRAINT_TOLERANCE)

/-- The loop of lines 62-77 followed by `return true`, started at index `n`
on the elements from `n` on. -/
def check_simplex_loop {E R : Type} (function name : String) (result : Option R)
    (P : Policy E R) : Nat → List Scalar → Outcome E R
  | _, [] => { ret := Except.ok true, calls := [], slot := result, writes := 0 }
  | n, x :: rest =>
    if !(x.ge (Scalar.num 0)) then
      report function (element_message name n) (Payload.value x) result
        (P.raise_prob function (element_message name n) x)
    else
      check_simplex_loop function name result P (n + 1) rest

/-- The five-argument `check_simplex` (lines 30-79). -/
def check_simplex {E R : Type} (env : Env R) (function : String) (theta : List Scalar)
    (name : String) (result : Option R) (P : Policy E R) : Outcome E R :=
  if theta.length = 0 then
    report function (empty_message name) (Payload.count 0) result
      ((P.raise_size function (empty_message name) 0).map env.convert)
  else if sum_out_of_tolerance env theta then
    report function (sum_message env.render name (sum theta)) (Payload.value (sum theta)) result
      (P.raise_prob function (sum_message env.render name (sum theta)) (sum theta))
  else
    check_simplex_loop function name result P 0 theta

/-! ## Rendering of a message by the policy -/

/-- Modelled from the spec: the substitution of the offending value into the
placeholder of a message template, which the policy performs when it renders
the message (`raise_domain_error.hpp` is not among the sources).  Every
occurrence of the placeholder `%1%` in the template is replaced by the text
`arg`; all other characters are kept. -/
def substitute (arg : List Char) : List Char → List Char
  | '%' :: '1' :: '%' :: rest => arg ++ substitute arg rest
  | c :: rest => c :: substitute arg rest
  | [] => []

/-- The text of a payload: a count in decimal, a scalar through the stream
rendering. -/
def Payload.text (render : Scalar → String) : Payload → String
  | Payload.count n => toString n
  | Payload.value x => render x

/-- Modelled from the spec: the fully rendered message of a policy invocation,
its payload substituted into the placeholder of its template. -/
def rendered (render : Scalar → String) (c : Call) : String :=
  String.mk (substitute (c.payload.text render).data c.message.data)

/-- The value a value-producing policy hands back for an invocation, as it
arrives in `T_result tmp`: for a count payload the index-typed value of the
policy converted to `T_result`. -/
def produced {R : Type} (convert : Nat → R) (gi : String → String → Nat → Nat)
    (gv : String → String → Scalar → R) (c : Call) : R :=
  match c.payload with
  | Payload.count n => convert (gi c.function c.message n)
  | Payload.value x => gv c.function c.message x

/-- The error a raising policy ends an invocation with. -/
def raised {E : Type} (ei : String → String → Nat → E)
    (ev : String → String → Scalar → E) (c : Call) : E :=
  match c.payload with
  | Payload.count n => ei c.function c.message n
  | Payload.value x => ev c.function c.message x

/-- The vector of exact numbers `theta`, as a vector of scalars. -/
def exact (theta : List ℚ) : List Scalar :=
  theta.map Scalar.num

/-- The result of the policy invocation `c`, as it arrives in `T_result tmp`:
the index-typed result of a count invocation is converted to `T_result`. -/
def invoke {E R : Type} (convert : Nat → R) (P : Policy E R) (c : Call) : Except E R :=
  match c.payload with
  | Payload.count n => (P.raise_size c.function c.message n).map convert
  | Payload.value x => P.raise_prob c.function c.message x

/-- An environment for the examples: tolerance `10^-8`, sums rendered by a
fixed text, counts converted to the rational of the same value. -/
def example_env : Env ℚ :=
  { CONSTRAINT_TOLERANCE := 1 / 100000000
    render := fun _ => "SUM"
    convert := fun n => (n : ℚ) }

/-- A value-producing policy for the examples: it hands back the count, and
`-1` for a scalar payload. -/
def example_producing : Policy Unit ℚ :=
  Policy.producing Unit (fun _ _ n => n) (fun _ _ _ => -1)

/-- A raising policy for the examples: its error is the function name it was
called with. -/
def example_raising : Policy String ℚ :=
  Policy.raising ℚ (fun f _ _ => f) (fun f _ _ => f)

/-! ## The decision of the checker, and the other overloads -/

/-- The violations `check_simplex` can detect, one for each branch that calls
the policy: the vector has size zero; the sum, which is carried, is out of
tolerance; the element `x` at index `n` fails `>= 0`. -/
inductive Violation where
  | EmptyInput : Violation
  | SumOutOfTolerance (sum : Scalar) : Violation
  | NegativeElement (n : Nat) (x : Scalar) : Violation
  deriving DecidableEq

/-- The kind of a violation: which of the three branches fired. -/
inductive Kind where
  | empty : Kind
  | sum : Kind
  | element : Kind
  deriving DecidableEq

/-- The branch a violation belongs to, its data forgotten. -/
def Violation.kind : Violation → Kind
  | Violation.EmptyInput => Kind.empty
  | Violation.SumOutOfTolerance _ => Kind.sum
  | Violation.NegativeElement _ _ => Kind.element

/-- The scan of the loop of lines 62-77 without the policy: the first index,
counted from `n`, whose element fails `theta[n] >= 0`, with that element. -/
def first_failing : Nat → List Scalar → Option (Nat × Scalar)
  | _, [] => none
  | n, x :: rest =>
    if !(x.ge (Scalar.num 0)) then some (n, x) else first_failing (n + 1) rest

/-- The decision of `check_simplex` without the policy: the conditions of
lines 37, 48 and 63, tested in that order, the first that holds deciding. -/
def detect {R : Type} (env : Env R) (theta : List Scalar) : Option Violation :=
  if theta.length = 0 then some Violation.EmptyInput
  else if sum_out_of_tolerance env theta then some (Violation.SumOutOfTolerance (sum theta))
  else (first_failing 0 theta).map (fun p => Violation.NegativeElement p.1 p.2)

/-- The policy invocation `check_simplex` makes for a violation (lines 40-43,
54-57 and 68-72). -/
def Violation.call {R : Type} (env : Env R) (function name : String) : Violation → Call
  | Violation.EmptyInput => ⟨function, empty_message name, Payload.count 0⟩
  | Violation.SumOutOfTolerance s => ⟨function, sum_message env.render name s, Payload.value s⟩
  | Violation.NegativeElement n x => ⟨function, element_message name n, Payload.value x⟩

/-- The four-argument overload of lines 81-88, which passes `default_policy()`
on; the policy of `default_policy.hpp` is a parameter. -/
def check_simplex_result {E R : Type} (default_policy : Policy E R) (env : Env R)
    (function : String) (theta : List Scalar) (name : String) (result : Option R) :
    Outcome E R :=
  check_simplex env function theta name result default_policy

/-- The overload of lines 89-95, whose result has the scalar type of the
vector, called with its `result` argument. -/
def check_simplex_same {E : Type} (default_policy : Policy E Scalar) (env : Env Scalar)
    (function : String) (theta : List Scalar) (name : String) (result : Option Scalar) :
    Outcome E Scalar :=
  check_simplex env function theta name result default_policy

/-- The overload of lines 89-95 called without its `result` argument, which
then takes its default `T* result = 0`, the null pointer. -/
def check_simplex_omitted {E : Type} (default_policy : Policy E Scalar) (env : Env Scalar)
    (function : String) (theta : List Scalar) (name : String) : Outcome E Scalar :=
  check_simplex_same default_policy env function theta name none

/-! ## Auxiliary facts -/

section aux

variable {E R : Type}

theorem foldl_add_exact (l : List ℚ) (a : ℚ) :
    (exact l).foldl Scalar.add (Scalar.num a) = Scalar.num (a + l.sum) := by
  induction l generalizing a with
  | nil => simp [exact]
  | cons x xs ih =>
    have h := ih (a + x)
    simp only [exact] at h
    simp [exact, Scalar.add, h, add_assoc]

theorem sum_exact (l : List ℚ) : sum (exact l) = Scalar.num l.sum := by
  simp [sum, foldl_add_exact]

theorem sum_out_of_tolerance_exact (env : Env R) (l : List ℚ) :
    sum_out_of_tolerance env (exact l) = decide (env.CONSTRAINT_TOLERANCE < |1 - l.sum|) := by
  simp [sum_out_of_tolerance, sum_exact, Scalar.sub, fabs, Scalar.gt]

theorem exact_length (l : List ℚ) : (exact l).length = l.length := by
  simp [exact]

theorem ge_zero_exact (q : ℚ) : (Scalar.num q).ge (Scalar.num 0) = decide (0 ≤ q) := rfl

/-- The loop returns `true`, untouched state, when every element passes `>= 0`. -/
theorem loop_pass (function name : String) (result : Option R) (P : Policy E R)
    (theta : List Scalar) (n : Nat) (h : ∀ x ∈ theta, x.ge (Scalar.num 0) = true) :
    check_simplex_loop function name result P n theta
      = { ret := Except.ok true, calls := [], slot := result, writes := 0 } := by
  induction theta generalizing n with
  | nil => rfl
  | cons x xs ih =>
    have hx : x.ge (Scalar.num 0) = true := h x (List.mem_cons_self _ _)
    have hxs : ∀ y ∈ xs, y.ge (Scalar.num 0) = true :=
      fun y hy => h y (List.mem_cons_of_mem _ hy)
    simp [check_simplex_loop, hx, ih (n + 1) hxs]

/-- The loop stops at the first element that fails `>= 0` and reports it. -/
theorem loop_fail (function name : String) (result : Option R) (P : Policy E R)
    (pre post : List Scalar) (x : Scalar) (n : Nat)
    (hpre : ∀ y ∈ pre, y.ge (Scalar.num 0) = true) (hx : x.ge (Scalar.num 0) = false) :
    check_simplex_loop function name result P n (pre ++ x :: post)
      = report function (element_message name (n + pre.length)) (Payload.value x) result
          (P.raise_prob function (element_message name (n + pre.length)) x) := by
  induction pre generalizing n with
  | nil => simp [check_simplex_loop, hx]
  | cons y ys ih =>
    have hy : y.ge (Scalar.num 0) = true := hpre y (List.mem_cons_self _ _)
    have hys : ∀ z ∈ ys, z.ge (Scalar.num 0) = true :=
      fun z hz => hpre z (List.mem_cons_of_mem _ hz)
    have e : n + 1 + ys.length = n + (y :: ys).length := by
      simp [List.length_cons]; omega
    have key := ih (n + 1) hys
    rw [e] at key
    rw [List.cons_append]
    simpa [check_simplex_loop, hy] using key

/-- Every vector either has all elements passing `>= 0`, or has a first one
that fails. -/
theorem first_fail_exists (theta : List Scalar) :
    (∀ x ∈ theta, x.ge (Scalar.num 0) = true) ∨
    ∃ pre x post, theta = pre ++ x :: post ∧
      (∀ y ∈ pre, y.ge (Scalar.num 0) = true) ∧ x.ge (Scalar.num 0) = false := by
  induction theta with
  | nil => left; simp
  | cons a as ih =>
    cases ha : a.ge (Scalar.num 0) with
    | false => right; exact ⟨[], a, as, rfl, by simp, ha⟩
    | true =>
      rcases ih with hall | ⟨pre, x, post, rfl, hpre, hx⟩
      · left
        intro y hy
        rcases List.mem_cons.mp hy with rfl | hy
        · exact ha
        · exact hall y hy
      · right
        refine ⟨a :: pre, x, post, rfl, ?_, hx⟩
        intro y hy
        rcases List.mem_cons.mp hy with rfl | hy
        · exact ha
        · exact hpre y hy

theorem check_simplex_nil (env : Env R) (function name : String) (result : Option R)
    (P : Policy E R) :
    check_simplex env function [] name result P
      = report function (empty_message name) (Payload.count 0) result
          ((P.raise_size function (empty_message name) 0).map env.convert) := by
  simp [check_simplex]

theorem check_simplex_sum (env : Env R) (function name : String) (result : Option R)
    (P : Policy E R) (theta : List Scalar) (hne : theta ≠ [])
    (hs : sum_out_of_tolerance env theta = true) :
    check_simplex env function theta name result P
      = report function (sum_message env.render name (sum theta)) (Payload.value (sum theta))
          result (P.raise_prob function (sum_message env.render name (sum theta)) (sum theta)) := by
  have hlen : theta.length ≠ 0 := fun h => hne (List.length_eq_zero.mp h)
  simp [check_simplex, hlen, hs]

theorem check_simplex_scan (env : Env R) (function name : String) (result : Option R)
    (P : Policy E R) (theta : List Scalar) (hne : theta ≠ [])
    (hs : sum_out_of_tolerance env theta = false) :
    check_simplex env function theta name result P
      = check_simplex_loop function name result P 0 theta := by
  have hlen : theta.length ≠ 0 := fun h => hne (List.length_eq_zero.mp h)
  simp [check_simplex, hlen, hs]

theorem report_ok (function message : String) (payload : Payload) (result : Option R) (v : R) :
    (report function message payload result (Except.ok v : Except E R))
      = { ret := Except.ok false, calls := [⟨function, message, payload⟩],
          slot := result.map (fun _ => v), writes := if result.isSome then 1 else 0 } := by
  cases result <;> simp [report, store]

theorem report_error (function message : String) (payload : Payload) (result : Option R) (e : E) :
    (report function message payload result (Except.error e : Except E R))
      = { ret := Except.error e, calls := [⟨function, message, payload⟩],
          slot := result, writes := 0 } := rfl

theorem substitute_keep (arg : List Char) (c : Char) (rest : List Char) (hc : c ≠ '%') :
    substitute arg (c :: rest) = c :: substitute arg rest := by
  rw [substitute]
  intro rest2 h
  exact absurd h hc

theorem substitute_append (arg name rest : List Char) (h : '%' ∉ name) :
    substitute arg (name ++ rest) = name ++ substitute arg rest := by
  induction name with
  | nil => rfl
  | cons c cs ih =>
    have hc : c ≠ '%' := fun e => h (by simp [e])
    have hcs : '%' ∉ cs := fun e => h (List.mem_cons_of_mem _ e)
    rw [List.cons_append, substitute_keep arg c _ hc, ih hcs, List.cons_append]

theorem report_calls (function message : String) (payload : Payload) (result : Option R)
    (r : Except E R) :
    (report function message payload result r).calls = [⟨function, message, payload⟩] := by
  cases r <;> rfl

theorem invoke_producing (convert : Nat → R) (gi : String → String → Nat → Nat)
    (gv : String → String → Scalar → R) (c : Call) :
    invoke convert (Policy.producing E gi gv) c = Except.ok (produced convert gi gv c) := by
  rcases c with ⟨f, m, p⟩
  cases p <;> simp [invoke, produced, Policy.producing, Except.map]

theorem invoke_raising (convert : Nat → R) (ei : String → String → Nat → E)
    (ev : String → String → Scalar → E) (c : Call) :
    invoke convert (Policy.raising R ei ev) c = Except.error (raised ei ev c) := by
  rcases c with ⟨f, m, p⟩
  cases p <;> simp [invoke, raised, Policy.raising, Except.map]

/-- A call of `check_simplex` either finds the vector valid and has no effect,
or makes one policy invocation and ends as `report` says. -/
theorem check_simplex_cases (env : Env R) (function name : String) (result : Option R)
    (P : Policy E R) (theta : List Scalar) :
    (check_simplex env function theta name result P
        = { ret := Except.ok true, calls := [], slot := result, writes := 0 }
      ∧ (theta ≠ [] ∧ sum_out_of_tolerance env theta = false
          ∧ ∀ x ∈ theta, x.ge (Scalar.num 0) = true))
    ∨ (∃ c : Call, check_simplex env function theta name result P
          = report c.function c.message c.payload result (invoke env.convert P c))
      ∧ ¬ (theta ≠ [] ∧ sum_out_of_tolerance env theta = false
          ∧ ∀ x ∈ theta, x.ge (Scalar.num 0) = true) := by
  by_cases h0 : theta = []
  · subst h0
    right
    exact ⟨⟨⟨function, empty_message name, Payload.count 0⟩, check_simplex_nil _ _ _ _ _⟩,
      fun h => h.1 rfl⟩
  · cases hs : sum_out_of_tolerance env theta with
    | true =>
      right
      refine ⟨⟨⟨function, sum_message env.render name (sum theta), Payload.value (sum theta)⟩,
        check_simplex_sum env function name result P theta h0 hs⟩, ?_⟩
      simp
    | false =>
      rw [check_simplex_scan env function name result P theta h0 hs]
      rcases first_fail_exists theta with hall | ⟨pre, x, post, hsplit, hpre, hx⟩
      · left
        exact ⟨loop_pass function name result P theta 0 hall, h0, rfl, hall⟩
      · right
        refine ⟨⟨⟨function, element_message name (0 + pre.length), Payload.value x⟩, ?_⟩, ?_⟩
        · rw [hsplit]
          exact loop_fail function name result P pre post x 0 hpre hx
        · rintro ⟨_, _, hall⟩
          have := hall x (by rw [hsplit]; simp)
          rw [hx] at this
          exact absurd this (by simp)

theorem report_ret_ne_true (function message : String) (payload : Payload)
    (result : Option R) (r : Except E R) :
    (report function message payload result r).ret ≠ Except.ok true := by
  cases r <;> simp [report]

/-- The loop, read through the scan `first_failing`. -/
theorem loop_eq_first_failing (function name : String) (result : Option R) (P : Policy E R)
    (theta : List Scalar) (n : Nat) :
    check_simplex_loop function name result P n theta
      = match first_failing n theta with
        | none => { ret := Except.ok true, calls := [], slot := result, writes := 0 }
        | some p => report function (element_message name p.1) (Payload.value p.2) result
            (P.raise_prob function (element_message name p.1) p.2) := by
  induction theta generalizing n with
  | nil => rfl
  | cons x xs ih =>
    cases hx : x.ge (Scalar.num 0) with
    | false => simp [check_simplex_loop, first_failing, hx]
    | true => simpa [check_simplex_loop, first_failing, hx] using ih (n + 1)

/-- The whole call, read through the decision `detect`. -/
theorem check_simplex_eq_detect (env : Env R) (function name : String) (result : Option R)
    (P : Policy E R) (theta : List Scalar) :
    check_simplex env function theta name result P
      = match detect env theta with
        | none => { ret := Except.ok true, calls := [], slot := result, writes := 0 }
        | some v => report function (v.call env function name).message
            (v.call env function name).payload result
            (invoke env.convert P (v.call env function name)) := by
  by_cases h0 : theta.length = 0
  · simp [check_simplex, detect, h0, Violation.call, invoke]
  · cases hs : sum_out_of_tolerance env theta with
    | true => simp [check_simplex, detect, h0, hs, Violation.call, invoke]
    | false =>
      simp only [check_simplex, detect, h0, hs, if_false, Bool.false_eq_true]
      rw [loop_eq_first_failing]
      cases first_failing 0 theta with
      | none => rfl
      | some p => rfl

theorem calls_eq_detect (env : Env R) (function name : String) (result : Option R)
    (P : Policy E R) (theta : List Scalar) :
    (check_simplex env function theta name result P).calls
      = (detect env theta).toList.map (Violation.call env function name) := by
  rw [check_simplex_eq_detect]
  cases detect env theta with
  | none => rfl
  | some v => cases v <;> simp [report_calls, Violation.call]

theorem ret_true_iff_detect (env : Env R) (function name : String) (result : Option R)
    (P : Policy E R) (theta : List Scalar) :
    (check_simplex env function theta name result P).ret = Except.ok true
      ↔ detect env theta = none := by
  rw [check_simplex_eq_detect]
  cases detect env theta with
  | none => simp
  | some v => simpa using report_ret_ne_true _ _ _ result _

/-- What `first_failing` finds is the least failing index, with its element. -/
theorem first_failing_some (theta : List Scalar) (n k : Nat) (x : Scalar)
    (h : first_failing n theta = some (k, x)) :
    ∃ (i : Nat) (hi : i < theta.length), k = n + i ∧ theta.get ⟨i, hi⟩ = x
      ∧ x.ge (Scalar.num 0) = false
      ∧ ∀ (m : Nat) (hm : m < i), (theta.get ⟨m, lt_trans hm hi⟩).ge (Scalar.num 0) = true := by
  induction theta generalizing n with
  | nil => simp [first_failing] at h
  | cons y ys ih =>
    cases hy : y.ge (Scalar.num 0) with
    | false =>
      simp [first_failing, hy] at h
      obtain ⟨rfl, rfl⟩ := h
      exact ⟨0, by simp, rfl, rfl, hy, fun m hm => absurd hm (Nat.not_lt_zero m)⟩
    | true =>
      simp [first_failing, hy] at h
      obtain ⟨i, hi, hk, hget, hx, hfirst⟩ := ih (n + 1) h
      refine ⟨i + 1, by simpa using hi, by omega, by simpa using hget, hx, ?_⟩
      intro m hm
      cases m with
      | zero => simpa using hy
      | succ m => simpa using hfirst m (by omega)

theorem first_failing_none (theta : List Scalar) (n : Nat) :
    first_failing n theta = none ↔ ∀ x ∈ theta, x.ge (Scalar.num 0) = true := by
  induction theta generalizing n with
  | nil => simp [first_failing]
  | cons y ys ih =>
    cases hy : y.ge (Scalar.num 0) with
    | false => simp [first_failing, hy]
    | true => simp [first_failing, hy, ih (n + 1)]

theorem report_ret_slot_free (function message : String) (payload : Payload)
    (r1 r2 : Option R) (r : Except E R) :
    (report function message payload r1 r).ret = (report function message payload r2 r).ret := by
  cases r <;> rfl

theorem foldl_add_nan (l : List Scalar) : l.foldl Scalar.add Scalar.nan = Scalar.nan := by
  induction l with
  | nil => rfl
  | cons x xs ih => simpa [Scalar.add] using ih

theorem foldl_add_of_nan_mem (l : List Scalar) (a : Scalar) (h : Scalar.nan ∈ l) :
    l.foldl Scalar.add a = Scalar.nan := by
  induction l generalizing a with
  | nil => simp at h
  | cons x xs ih =>
    rcases List.mem_cons.mp h with hx | hx
    · subst hx
      cases a <;> simpa [Scalar.add] using foldl_add_nan xs
    · simpa using ih (a.add x) hx

theorem sum_of_nan_mem (theta : List Scalar) (h : Scalar.nan ∈ theta) :
    sum theta = Scalar.nan :=
  foldl_add_of_nan_mem theta _ h

theorem all_ge_exact_mem (theta : List ℚ) :
    (∀ x ∈ exact theta, x.ge (Scalar.num 0) = true) ↔ ∀ q ∈ theta, 0 ≤ q := by
  simp [exact, ge_zero_exact]

/-- On a vector of exact numbers `detect` is none exactly on the valid ones. -/
theorem detect_none_exact (env : Env R) (theta : List ℚ) :
    detect env (exact theta) = none
      ↔ theta ≠ [] ∧ |1 - theta.sum| ≤ env.CONSTRAINT_TOLERANCE ∧ ∀ q ∈ theta, 0 ≤ q := by
  by_cases h0 : theta = []
  · subst h0
    simp [detect, exact]
  · have hlen : (exact theta).length ≠ 0 := by
      rw [exact_length]
      exact fun e => h0 (List.length_eq_zero.mp e)
    by_cases hs : env.CONSTRAINT_TOLERANCE < |1 - theta.sum|
    · simp [detect, hlen, sum_out_of_tolerance_exact, hs, not_le.mpr hs]
    · simp only [detect, hlen, sum_out_of_tolerance_exact, hs, decide_False, if_false,
        Bool.false_eq_true, Option.map_eq_none', first_failing_none, all_ge_exact_mem]
      simp [h0, not_lt.mp hs]

/-- The kind of the violation `detect` finds on a vector of exact numbers. -/
theorem detect_kind_exact (env : Env R) (theta : List ℚ) :
    (detect env (exact theta)).map Violation.kind
      = if theta = [] then some Kind.empty
        else if env.CONSTRAINT_TOLERANCE < |1 - theta.sum| then some Kind.sum
        else if ∀ q ∈ theta, 0 ≤ q then none else some Kind.element := by
  by_cases h0 : theta = []
  · subst h0
    simp [detect, exact, Violation.kind]
  · have hlen : (exact theta).length ≠ 0 := by
      rw [exact_length]
      exact fun e => h0 (List.length_eq_zero.mp e)
    by_cases hs : env.CONSTRAINT_TOLERANCE < |1 - theta.sum|
    · simp [detect, hlen, sum_out_of_tolerance_exact, hs, h0, Violation.kind]
    · simp only [detect, hlen, sum_out_of_tolerance_exact, hs, h0, decide_False, if_false,
        Bool.false_eq_true]
      cases hff : first_failing 0 (exact theta) with
      | none =>
        have hall := (all_ge_exact_mem theta).mp ((first_failing_none _ 0).mp hff)
        rw [if_pos hall]
        rfl
      | some p =>
        have hnot : ¬ ∀ q ∈ theta, 0 ≤ q := by
          intro hall
          have := (first_failing_none (exact theta) 0).mpr ((all_ge_exact_mem theta).mpr hall)
          rw [hff] at this
          simp at this
        rw [if_neg hnot]
        rfl

end aux

/-! ## The properties -/

/-- C3: on the vector of size zero, under every value-producing policy,
`check_simplex` returns `false` after exactly one policy invocation, the one
of the size-zero branch with the count `0` as payload; the slot, when
supplied, receives the converted value of the policy.  The outcome is the
same whatever the tolerance and the rendering of sums are: neither the sum
check nor the element loop takes part in it. -/
theorem check_simplex_empty {E R : Type} (env : Env R) (function name : String)
    (result : Option R) (gi : String → String → Nat → Nat)
    (gv : String → String → Scalar → R) :
    check_simplex env function [] name result (Policy.producing E gi gv)
        = { ret := Except.ok false,
            calls := [⟨function, empty_message name, Payload.count 0⟩],
            slot := result.map (fun _ => env.convert (gi function (empty_message name) 0)),
            writes := if result.isSome then 1 else 0 }
      ∧ ∀ (tol : ℚ) (render : Scalar → String),
          check_simplex ⟨tol, render, env.convert⟩ function [] name result
              (Policy.producing E gi gv)
            = check_simplex env function [] name result (Policy.producing E gi gv) := by
  constructor
  · simp [check_simplex_nil, Policy.producing, Except.map, report_ok]
  · intro tol render
    simp [check_simplex_nil]

/-- C4 (as amended): on the vector of size zero, for every subject name without
the character `%`, the message of the policy invocation, once the payload `0`
is substituted into its placeholder, is the name, then
` is not a valid simplex. ` (a full stop after `simplex`), then the count,
then ` elements in the vector.`. -/
theorem empty_message_rendered {E R : Type} (env : Env R) (function name : String)
    (result : Option R) (P : Policy E R) (hname : '%' ∉ name.data) :
    (check_simplex env function [] name result P).calls.map (rendered env.render)
      = [name ++ " is not a valid simplex. 0 elements in the vector."] := by
  rw [check_simplex_nil, report_calls]
  simp only [List.map, rendered, Payload.text, empty_message, String.data_append]
  rw [substitute_append _ _ _ hname]
  rfl

/-- Witness for C4 (as amended): the subject name `theta`. -/
theorem empty_message_rendered_witness :
    '%' ∉ "theta".data ∧
    (check_simplex example_env "f" [] "theta" (some 5) example_producing).calls.map
        (rendered example_env.render)
      = ["theta" ++ " is not a valid simplex. 0 elements in the vector."] :=
  ⟨by decide, empty_message_rendered example_env "f" "theta" (some 5) example_producing
    (by decide)⟩

/-- C4 (as stated) fails: for the subject name `theta` the rendered message of
the size-zero branch is not `theta is not a valid simplex: 0 elements in the
vector.`, the template has a full stop where the claim has a colon; and for the
subject name `%1%` the rendered message does not start with the name, because
the substitution reaches the placeholder inside the name too. -/
theorem empty_message_colon_refuted :
    (check_simplex example_env "f" [] "theta" none example_producing).calls.map
        (rendered example_env.render)
      ≠ ["theta is not a valid simplex: 0 elements in the vector."]
    ∧ (check_simplex example_env "f" [] "theta" none example_producing).calls.map
        (rendered example_env.render)
      = ["theta is not a valid simplex. 0 elements in the vector."]
    ∧ (check_simplex example_env "f" [] "%1%" none example_producing).calls.map
        (rendered example_env.render)
      = ["0 is not a valid simplex. 0 elements in the vector."] := by
  refine ⟨by decide, by decide, by decide⟩

/-- C8: for every vector (not-a-number elements included), name and
value-producing policy, one call of `check_simplex` either returns `true`
with zero policy invocations, the vector passing all three checks, or returns
`false` with exactly one policy invocation, the vector failing one of them;
there is no third case. -/
theorem check_simplex_policy_once {E R : Type} (env : Env R) (function name : String)
    (theta : List Scalar) (result : Option R) (gi : String → String → Nat → Nat)
    (gv : String → String → Scalar → R) :
    ((check_simplex env function theta name result (Policy.producing E gi gv)).ret
          = Except.ok true
        ∧ (check_simplex env function theta name result (Policy.producing E gi gv)).calls.length
          = 0
        ∧ (theta ≠ [] ∧ sum_out_of_tolerance env theta = false
            ∧ ∀ x ∈ theta, x.ge (Scalar.num 0) = true))
    ∨ ((check_simplex env function theta name result (Policy.producing E gi gv)).ret
          = Except.ok false
        ∧ (check_simplex env function theta name result (Policy.producing E gi gv)).calls.length
          = 1
        ∧ ¬ (theta ≠ [] ∧ sum_out_of_tolerance env theta = false
            ∧ ∀ x ∈ theta, x.ge (Scalar.num 0) = true)) := by
  rcases check_simplex_cases env function name result (Policy.producing E gi gv) theta with
    ⟨h, hv⟩ | ⟨⟨c, h⟩, hv⟩
  · left
    rw [h]
    exact ⟨rfl, rfl, hv⟩
  · right
    rw [h, invoke_producing, report_ok]
    exact ⟨rfl, rfl, hv⟩

/-- C9: whenever `check_simplex` returns `false` under a value-producing policy
with an output slot supplied, the slot has been assigned exactly once, the
call made exactly one policy invocation, and the slot holds the value the
policy produced for it, converted to `T_result` when the invocation is the
count-typed one of the size-zero branch. -/
theorem check_simplex_slot_written_once {E R : Type} (env : Env R) (function name : String)
    (theta : List Scalar) (old : R) (gi : String → String → Nat → Nat)
    (gv : String → String → Scalar → R)
    (hfalse : (check_simplex env function theta name (some old) (Policy.producing E gi gv)).ret
      = Except.ok false) :
    (check_simplex env function theta name (some old) (Policy.producing E gi gv)).writes = 1
      ∧ ∃ c : Call,
          (check_simplex env function theta name (some old) (Policy.producing E gi gv)).calls
            = [c]
          ∧ (check_simplex env function theta name (some old) (Policy.producing E gi gv)).slot
            = some (produced env.convert gi gv c) := by
  rcases check_simplex_cases env function name (some old) (Policy.producing E gi gv) theta with
    ⟨h, _⟩ | ⟨⟨c, h⟩, _⟩
  · rw [h] at hfalse
    simp at hfalse
  · rw [h, invoke_producing, report_ok]
    exact ⟨rfl, ⟨c.function, c.message, c.payload⟩, rfl, rfl⟩

/-- Witness for C9, one input for each violation branch: the empty vector, a
vector summing to `2`, and a vector summing to `1` with a negative element. -/
theorem check_simplex_slot_written_once_witness :
    ((check_simplex example_env "f" [] "theta" (some 5) example_producing).ret
        = Except.ok false
      ∧ (check_simplex example_env "f" [] "theta" (some 5) example_producing).writes = 1
      ∧ ∃ c : Call,
          (check_simplex example_env "f" [] "theta" (some 5) example_producing).calls = [c]
          ∧ (check_simplex example_env "f" [] "theta" (some 5) example_producing).slot
            = some (produced example_env.convert (fun _ _ n => n) (fun _ _ _ => -1) c))
    ∧ ((check_simplex example_env "f" (exact [2]) "theta" (some 5) example_producing).writes = 1
      ∧ ∃ c : Call,
          (check_simplex example_env "f" (exact [2]) "theta" (some 5) example_producing).calls
            = [c]
          ∧ (check_simplex example_env "f" (exact [2]) "theta" (some 5) example_producing).slot
            = some (produced example_env.convert (fun _ _ n => n) (fun _ _ _ => -1) c))
    ∧ ((check_simplex example_env "f" (exact [3 / 2, -1 / 2]) "theta" (some 5)
          example_producing).writes = 1
      ∧ ∃ c : Call,
          (check_simplex example_env "f" (exact [3 / 2, -1 / 2]) "theta" (some 5)
            example_producing).calls = [c]
          ∧ (check_simplex example_env "f" (exact [3 / 2, -1 / 2]) "theta" (some 5)
            example_producing).slot
            = some (produced example_env.convert (fun _ _ n => n) (fun _ _ _ => -1) c)) :=
  ⟨⟨rfl,
      check_simplex_slot_written_once example_env "f" "theta" [] 5 (fun _ _ n => n)
        (fun _ _ _ => -1) rfl⟩,
    check_simplex_slot_written_once example_env "f" "theta" (exact [2]) 5 (fun _ _ n => n)
      (fun _ _ _ => -1)
      (by norm_num [check_simplex, exact, sum_out_of_tolerance, sum, Scalar.add, Scalar.sub,
        Scalar.gt, fabs, example_env, Policy.producing, report]),
    check_simplex_slot_written_once example_env "f" "theta" (exact [3 / 2, -1 / 2]) 5
      (fun _ _ n => n) (fun _ _ _ => -1)
      (by norm_num [check_simplex, check_simplex_loop, exact, sum_out_of_tolerance, sum,
        Scalar.add, Scalar.sub, Scalar.gt, Scalar.ge, fabs, example_env, Policy.producing,
        report])⟩

/-- C11: detection does not depend on the policy.  For every vector and name
and any two policies, raising or value-producing, the two calls of
`check_simplex` make the same policy invocations (same function name, same
template, same payload), namely the one invocation of the violation that the
policy-free decision `detect` finds, or none; and one returns `true` exactly
when the other does. -/
theorem detection_policy_independent {E1 E2 R : Type} (env : Env R) (function name : String)
    (theta : List Scalar) (result : Option R) (P1 : Policy E1 R) (P2 : Policy E2 R) :
    (check_simplex env function theta name result P1).calls
        = (check_simplex env function theta name result P2).calls
      ∧ (check_simplex env function theta name result P1).calls
        = (detect env theta).toList.map (Violation.call env function name)
      ∧ ((check_simplex env function theta name result P1).ret = Except.ok true
        ↔ (check_simplex env function theta name result P2).ret = Except.ok true) := by
  refine ⟨?_, calls_eq_detect env function name result P1 theta, ?_⟩
  · rw [calls_eq_detect, calls_eq_detect]
  · rw [ret_true_iff_detect, ret_true_iff_detect]

/-- C12: a vector with a not-a-number element is never accepted, and what is
reported is the element violation.  The sum check passes (its comparison is
false on not-a-number), the decision is `NegativeElement` at the least index
`n0` whose element fails `>= 0`, the call ends as the element branch ends for
`n0`, and it does not return `true`. -/
theorem nan_reported_as_element {E R : Type} (env : Env R) (function name : String)
    (theta : List Scalar) (result : Option R) (P : Policy E R)
    (hnan : Scalar.nan ∈ theta) :
    sum_out_of_tolerance env theta = false
      ∧ ∃ (n0 : Nat) (h0 : n0 < theta.length),
          (theta.get ⟨n0, h0⟩).ge (Scalar.num 0) = false
          ∧ (∀ (m : Nat) (hm : m < n0),
              (theta.get ⟨m, lt_trans hm h0⟩).ge (Scalar.num 0) = true)
          ∧ detect env theta = some (Violation.NegativeElement n0 (theta.get ⟨n0, h0⟩))
          ∧ check_simplex env function theta name result P
            = report function (element_message name n0) (Payload.value (theta.get ⟨n0, h0⟩))
                result (P.raise_prob function (element_message name n0) (theta.get ⟨n0, h0⟩))
          ∧ (check_simplex env function theta name result P).ret ≠ Except.ok true := by
  have hs : sum_out_of_tolerance env theta = false := by
    simp [sum_out_of_tolerance, sum_of_nan_mem theta hnan, Scalar.sub, fabs, Scalar.gt]
  have hlen : theta.length ≠ 0 := by
    intro h
    rw [List.length_eq_zero] at h
    simp [h] at hnan
  refine ⟨hs, ?_⟩
  cases hff : first_failing 0 theta with
  | none =>
    have := (first_failing_none theta 0).mp hff Scalar.nan hnan
    simp [Scalar.ge] at this
  | some p =>
    obtain ⟨k, x⟩ := p
    obtain ⟨i, hi, hk, hget, hx, hfirst⟩ := first_failing_some theta 0 k x hff
    have hki : k = i := by omega
    subst hki
    subst hget
    have hd : detect env theta = some (Violation.NegativeElement k (theta.get ⟨k, hi⟩)) := by
      simp [detect, hlen, hs, hff]
    refine ⟨k, hi, hx, hfirst, hd, ?_, ?_⟩
    · rw [check_simplex_eq_detect, hd]
      rfl
    · rw [check_simplex_eq_detect, hd]
      exact report_ret_ne_true _ _ _ _ _

/-- Witness for C12: the element at index `1` is not-a-number and a negative
element follows it; index `1` is the one reported. -/
theorem nan_reported_as_element_witness :
    Scalar.nan ∈ [Scalar.num (1 / 2), Scalar.nan, Scalar.num (-1)]
    ∧ (sum_out_of_tolerance example_env [Scalar.num (1 / 2), Scalar.nan, Scalar.num (-1)]
        = false
      ∧ ∃ (n0 : Nat)
          (h0 : n0 < [Scalar.num (1 / 2), Scalar.nan, Scalar.num (-1)].length),
          ([Scalar.num (1 / 2), Scalar.nan, Scalar.num (-1)].get ⟨n0, h0⟩).ge (Scalar.num 0)
            = false
          ∧ (∀ (m : Nat) (hm : m < n0),
              ([Scalar.num (1 / 2), Scalar.nan, Scalar.num (-1)].get
                ⟨m, lt_trans hm h0⟩).ge (Scalar.num 0) = true)
          ∧ detect example_env [Scalar.num (1 / 2), Scalar.nan, Scalar.num (-1)]
            = some (Violation.NegativeElement n0
                ([Scalar.num (1 / 2), Scalar.nan, Scalar.num (-1)].get ⟨n0, h0⟩))
          ∧ check_simplex example_env "f" [Scalar.num (1 / 2), Scalar.nan, Scalar.num (-1)]
              "theta" (some 5) example_producing
            = report "f" (element_message "theta" n0)
                (Payload.value ([Scalar.num (1 / 2), Scalar.nan, Scalar.num (-1)].get ⟨n0, h0⟩))
                (some 5)
                (example_producing.raise_prob "f" (element_message "theta" n0)
                  ([Scalar.num (1 / 2), Scalar.nan, Scalar.num (-1)].get ⟨n0, h0⟩))
          ∧ (check_simplex example_env "f" [Scalar.num (1 / 2), Scalar.nan, Scalar.num (-1)]
              "theta" (some 5) example_producing).ret ≠ Except.ok true) :=
  ⟨by simp,
    nan_reported_as_element example_env "f" "theta"
      [Scalar.num (1 / 2), Scalar.nan, Scalar.num (-1)] (some 5) example_producing (by simp)⟩

/-- C13: the output slot is not a control signal.  For every vector, name and
policy, the call with the null pointer and the call with a slot end the same
way (same returned boolean or same error) and make the same policy
invocations. -/
theorem slot_not_control {E R : Type} (env : Env R) (function name : String)
    (theta : List Scalar) (old : R) (P : Policy E R) :
    (check_simplex env function theta name none P).ret
        = (check_simplex env function theta name (some old) P).ret
      ∧ (check_simplex env function theta name none P).calls
        = (check_simplex env function theta name (some old) P).calls := by
  constructor
  · rw [check_simplex_eq_detect, check_simplex_eq_detect]
    cases detect env theta with
    | none => rfl
    | some v => exact report_ret_slot_free _ _ _ _ _ _
  · rw [calls_eq_detect, calls_eq_detect]

/-- C15: for every non-empty vector whose sum is out of tolerance and every
subject name, the call makes one policy invocation, whose payload is the sum
and whose template contains the constraint name `simplex`, the subject name,
and the text the stream gives for `sum(theta)`. -/
theorem sum_message_contents {E R : Type} (env : Env R) (function name : String)
    (theta : List Scalar) (result : Option R) (P : Policy E R)
    (hne : theta ≠ []) (hs : sum_out_of_tolerance env theta = true) :
    ∃ c : Call, (check_simplex env function theta name result P).calls = [c]
      ∧ c.payload = Payload.value (sum theta)
      ∧ ("simplex").data <:+: c.message.data
      ∧ name.data <:+: c.message.data
      ∧ (env.render (sum theta)).data <:+: c.message.data := by
  refine ⟨⟨function, sum_message env.render name (sum theta), Payload.value (sum theta)⟩,
    ?_, rfl, ?_, ?_, ?_⟩
  · rw [check_simplex_sum env function name result P theta hne hs, report_calls]
  · refine ⟨("in function check_simplex(%1%), ").data ++ name.data ++ (" is not a valid ").data,
      (".").data ++ (" The sum of the elements should be 1, but is ").data
        ++ (env.render (sum theta)).data, ?_⟩
    simp only [sum_message, String.data_append, List.append_assoc]
    rfl
  · refine ⟨("in function check_simplex(%1%), ").data,
      (" is not a valid simplex.").data
        ++ (" The sum of the elements should be 1, but is ").data
        ++ (env.render (sum theta)).data, ?_⟩
    simp only [sum_message, String.data_append, List.append_assoc]
  · refine ⟨("in function check_simplex(%1%), ").data ++ name.data
        ++ (" is not a valid simplex.").data
        ++ (" The sum of the elements should be 1, but is ").data, [], ?_⟩
    simp only [sum_message, String.data_append, List.append_assoc, List.append_nil]

/-- Witness for C15: a vector summing to `2`. -/
theorem sum_message_contents_witness :
    exact [2] ≠ [] ∧ sum_out_of_tolerance example_env (exact [2]) = true
    ∧ ∃ c : Call,
        (check_simplex example_env "f" (exact [2]) "theta" (some 5) example_raising).calls = [c]
        ∧ c.payload = Payload.value (sum (exact [2]))
        ∧ ("simplex").data <:+: c.message.data
        ∧ ("theta").data <:+: c.message.data
        ∧ (example_env.render (sum (exact [2]))).data <:+: c.message.data :=
  ⟨by simp [exact],
    by norm_num [sum_out_of_tolerance_exact, example_env, abs_of_neg],
    sum_message_contents example_env "f" "theta" (exact [2]) (some 5) example_raising
      (by simp [exact])
      (by norm_num [sum_out_of_tolerance_exact, example_env, abs_of_neg])⟩

/-- C16: in every violation branch the function name handed to the policy is
the `function` argument, unchanged: every invocation a call makes carries it,
there is one such invocation exactly when a violation is detected, and under
a raising policy the error that ends the call is the one the policy builds
from that function name, the template and the payload. -/
theorem function_name_passed {E R : Type} (env : Env R) (function name : String)
    (theta : List Scalar) (result : Option R) (P : Policy E R)
    (ei : String → String → Nat → E) (ev : String → String → Scalar → E) :
    (∀ c ∈ (check_simplex env function theta name result P).calls, c.function = function)
      ∧ (check_simplex env function theta name result P).calls.map Call.function
        = (detect env theta).toList.map (fun _ => function)
      ∧ (check_simplex env function theta name result (Policy.raising R ei ev)).ret
        = match detect env theta with
          | none => Except.ok true
          | some v => Except.error (raised ei ev
              ⟨function, (v.call env function name).message,
                (v.call env function name).payload⟩) := by
  have hmap : (check_simplex env function theta name result P).calls.map Call.function
      = (detect env theta).toList.map (fun _ => function) := by
    rw [calls_eq_detect]
    cases detect env theta with
    | none => rfl
    | some v => cases v <;> rfl
  refine ⟨?_, hmap, ?_⟩
  · intro c hc
    have hmem : c.function ∈ (detect env theta).toList.map (fun _ => function) := by
      rw [← hmap]
      exact List.mem_map_of_mem _ hc
    simp only [List.mem_map] at hmem
    obtain ⟨_, _, h⟩ := hmem
    exact h.symm
  · rw [check_simplex_eq_detect]
    cases detect env theta with
    | none => rfl
    | some v =>
      simp only [invoke_raising, report_error]
      cases v <;> rfl

/-- C17: the overloads without a policy argument forward to the five-argument
`check_simplex` with `default_policy()`: the four-argument overload, the
overload whose result has the scalar type of the vector, and that overload
called without a result (null pointer) each give the outcome of the
five-argument call on the same arguments: same return, same policy
invocations, same effect on the slot. -/
theorem overloads_forward {E R : Type} (default_policy : Policy E R)
    (default_policy_same : Policy E Scalar) (env : Env R) (env_same : Env Scalar)
    (function : String) (theta : List Scalar) (name : String) (result : Option R)
    (result_same : Option Scalar) :
    check_simplex_result default_policy env function theta name result
        = check_simplex env function theta name result default_policy
      ∧ check_simplex_same default_policy_same env_same function theta name result_same
        = check_simplex env_same function theta name result_same default_policy_same
      ∧ check_simplex_omitted default_policy_same env_same function theta name
        = check_simplex env_same function theta name none default_policy_same :=
  ⟨rfl, rfl, rfl⟩

/-- C18: over exact numbers, every vector `check_simplex` accepts has all its
elements in the closed interval from `0` to `1 + CONSTRAINT_TOLERANCE`. -/
theorem accepted_elements_bounded {E R : Type} (env : Env R) (function name : String)
    (theta : List ℚ) (result : Option R) (P : Policy E R)
    (haccept : (check_simplex env function (exact theta) name result P).ret = Except.ok true) :
    ∀ (n : Nat) (hn : n < theta.length),
      0 ≤ theta.get ⟨n, hn⟩ ∧ theta.get ⟨n, hn⟩ ≤ 1 + env.CONSTRAINT_TOLERANCE := by
  rw [ret_true_iff_detect, detect_none_exact] at haccept
  obtain ⟨_, hsum, hpos⟩ := haccept
  intro n hn
  have hmem : theta.get ⟨n, hn⟩ ∈ theta := List.get_mem theta n hn
  refine ⟨hpos _ hmem, ?_⟩
  have hle : theta.get ⟨n, hn⟩ ≤ theta.sum := List.single_le_sum hpos _ hmem
  have hb := (abs_le.mp hsum).1
  linarith

/-- Witness for C18: the accepted vector `(1/4, 3/4)`. -/
theorem accepted_elements_bounded_witness :
    (check_simplex example_env "f" (exact [1 / 4, 3 / 4]) "theta" (some 5)
        example_producing).ret = Except.ok true
    ∧ ∀ (n : Nat) (hn : n < ([1 / 4, 3 / 4] : List ℚ).length),
        0 ≤ ([1 / 4, 3 / 4] : List ℚ).get ⟨n, hn⟩
        ∧ ([1 / 4, 3 / 4] : List ℚ).get ⟨n, hn⟩ ≤ 1 + example_env.CONSTRAINT_TOLERANCE :=
  ⟨by norm_num [check_simplex, check_simplex_loop, exact, sum_out_of_tolerance, sum,
      Scalar.add, Scalar.sub, Scalar.gt, Scalar.ge, fabs, example_env],
    accepted_elements_bounded example_env "f" "theta" [1 / 4, 3 / 4] (some 5)
      example_producing
      (by norm_num [check_simplex, check_simplex_loop, exact, sum_out_of_tolerance, sum,
        Scalar.add, Scalar.sub, Scalar.gt, Scalar.ge, fabs, example_env])⟩

/-- C19: over exact numbers the result of `check_simplex` does not depend on
the order of the elements.  For every vector and every permutation of it, one
is accepted exactly when the other is, and the kind of violation decided
(none, empty, sum out of tolerance, element) is the same for both; the index
of the element reported is not compared. -/
theorem permutation_invariant {E R : Type} (env : Env R) (function name : String)
    (theta theta2 : List ℚ) (result : Option R) (P : Policy E R)
    (hperm : theta.Perm theta2) :
    ((check_simplex env function (exact theta) name result P).ret = Except.ok true
        ↔ (check_simplex env function (exact theta2) name result P).ret = Except.ok true)
      ∧ (detect env (exact theta)).map Violation.kind
        = (detect env (exact theta2)).map Violation.kind := by
  have hnil : theta = [] ↔ theta2 = [] := by
    constructor
    · intro h; subst h; exact (List.nil_perm.mp hperm)
    · intro h; subst h; exact (List.perm_nil.mp hperm)
  have hsum : theta.sum = theta2.sum := hperm.sum_eq
  have hall : (∀ q ∈ theta, 0 ≤ q) ↔ ∀ q ∈ theta2, 0 ≤ q :=
    ⟨fun h q hq => h q (hperm.mem_iff.mpr hq), fun h q hq => h q (hperm.mem_iff.mp hq)⟩
  constructor
  · rw [ret_true_iff_detect, ret_true_iff_detect, detect_none_exact, detect_none_exact,
      hsum, hall]
    simp only [ne_eq, hnil]
  · rw [detect_kind_exact, detect_kind_exact, hsum]
    simp only [hnil, hall]

/-- Witness for C19: the vector `(3/2, -1/2)` and its reversal, both rejected
for a negative element, at index `1` in the one and `0` in the other. -/
theorem permutation_invariant_witness :
    ([3 / 2, -1 / 2] : List ℚ).Perm [-1 / 2, 3 / 2]
    ∧ (((check_simplex example_env "f" (exact [3 / 2, -1 / 2]) "theta" (some 5)
            example_producing).ret = Except.ok true
          ↔ (check_simplex example_env "f" (exact [-1 / 2, 3 / 2]) "theta" (some 5)
            example_producing).ret = Except.ok true)
      ∧ (detect example_env (exact [3 / 2, -1 / 2])).map Violation.kind
        = (detect example_env (exact [-1 / 2, 3 / 2])).map Violation.kind) :=
  ⟨List.Perm.swap _ _ _,
    permutation_invariant example_env "f" "theta" [3 / 2, -1 / 2] [-1 / 2, 3 / 2] (some 5)
      example_producing (List.Perm.swap _ _ _)⟩

end stan.math
